import Mathlib

/-!
Verification of the SafeBites query-understanding and retrieval pipeline
(`app/services/faiss_service.py` and friends), as documented with code
excerpts in the repository's architecture documents.

Similarity scores are modelled as rationals; the external numeric routines
(OpenAI embeddings, cosine similarity over floats) are abstracted as
function parameters, since the structural claims (filtering, vetoing,
deduplication, thresholding, sorting) do not depend on their values.
-/

namespace SafeBites

/-- A single index query result, `DishHit` from `app/models/faiss_model.py`:
the dish document (here reduced to its `_id` and `restaurant_id` fields,
the only ones the pipeline consults), the raw FAISS similarity score, the
stored embedding, and the optional refined score set by
`refine_with_centroid`. -/
structure DishHit where
  dish_id : String
  restaurant_id : String
  score : ℚ
  embedding : List ℚ
  centroid_similarity : Option ℚ := none
deriving Repr, DecidableEq

/-- The `QueryIntent` model from `app/models/faiss_model.py`: positive
(inclusion) and negative (exclusion) terms for one clause. -/
structure QueryIntent where
  positive : List String
  negative : List String
deriving Repr, DecidableEq

/-- One metadata record of the FAISS index, per the spec's `IndexEntry`
and the `metadata` dict built in `build_faiss_from_db`. -/
structure IndexEntry where
  vector_id : Nat
  embedding : List ℚ
  dish_id : String
  restaurant_id : String
deriving Repr, DecidableEq

/-- A catalog item as fed to `build_faiss_from_db`: the dish document's
identifying fields plus its canonical text representation. -/
structure CatalogItem where
  dish_id : String
  restaurant_id : String
  text : String
deriving Repr, DecidableEq

/-! ### Stable descending insertion sort

`list.sort(key=..., reverse=True)` in Python is a stable sort placing
larger keys first; we model it by stable insertion on the key. -/

/-- Insert `a` into a list sorted descending by `key`, before the first
element whose key is not larger (stable for equal keys). -/
def insertDescBy (key : α → ℚ) (a : α) : List α → List α
  | [] => [a]
  | b :: bs => if key b ≤ key a then a :: b :: bs else b :: insertDescBy key a bs

/-- Stable sort, descending by `key`. -/
def sortDescBy (key : α → ℚ) : List α → List α
  | [] => []
  | a :: as => insertDescBy key a (sortDescBy key as)

/-- The sort key used by `refine_with_centroid`:
`lambda x: x.centroid_similarity`. Every hit reaching the sort has the
field set; `getD` only supplies a default for the unreachable `none`. -/
def centroidKey (h : DishHit) : ℚ := h.centroid_similarity.getD 0

/-! ### Vector mean (centroid) -/

/-- Componentwise sum of two vectors (`np` elementwise `+`). -/
def vecAdd (a b : List ℚ) : List ℚ := List.zipWith (· + ·) a b

/-- Sum of a list of vectors. -/
def vecSum : List (List ℚ) → List ℚ
  | [] => []
  | [v] => v
  | v :: vs => vecAdd v (vecSum vs)

/-- Componentwise mean, as in `np.mean(vectors, axis=0)`. -/
def vecMean (vs : List (List ℚ)) : List ℚ :=
  (vecSum vs).map (fun x => x / (vs.length : ℚ))

/-! ### `refine_with_centroid` (faiss_service.py, doc excerpt lines 320–356) -/

/-- The function `refine_with_centroid(dish_hits, positive_intents,
dish_embeddings)`: compute the centroid of the positive-intent embeddings, keep exactly the
hits whose cosine similarity to the centroid is strictly greater than
0.30 (recording it in `centroid_similarity`), and sort the survivors
descending by that similarity. `cosine` and `embed` abstract the external
numeric routines. -/
def refine_with_centroid (cosine : List ℚ → List ℚ → ℚ) (embed : String → List ℚ)
    (dish_hits : List DishHit) (positive_intents : List String)
    (dish_embeddings : String → List ℚ) : List DishHit :=
  let centroid := vecMean (positive_intents.map embed)
  let refined := dish_hits.filterMap (fun hit =>
    let s := cosine centroid (dish_embeddings hit.dish_id)
    if (30 : ℚ) / 100 < s then some { hit with centroid_similarity := some s } else none)
  sortDescBy centroidKey refined

/-! ### `extract_query_intent` (faiss_service.py lines 37–86) -/

/-- Modelled from the spec: the body of `extract_query_intent` is not in
the repository sources, only its documented contract (doc excerpt line
237: on LLM output that fails to parse, return
`{"positive": [query], "negative": []}`) and the unit test
`test_extract_intent_handles_invalid_json`. The external LLM call is the
parameter `llm`; `none` stands for malformed/unparseable output. -/
def extract_query_intent (llm : String → Option QueryIntent) (query : String) : QueryIntent :=
  match llm query with
  | some intents => intents
  | none => { positive := [query], negative := [] }

/-! ### `search_dishes` (faiss_service.py lines 232–263) -/

/-- Modelled from the spec: the body of `search_dishes` is not in the
repository sources, only its documented contract (`Search` in spec §4.1
and the doc's step list): rank the scoped index entries by similarity to
the query vector, keep scores `≥ threshold`, restrict to the given
restaurant when one is supplied, and cap at `top_k`. `sim` abstracts the
FAISS similarity computation. -/
def search_dishes (sim : List ℚ → List ℚ → ℚ) (index : List IndexEntry)
    (queryVec : List ℚ) (restaurant_id : Option String) (top_k : Nat)
    (threshold : ℚ) : List DishHit :=
  let inScope := match restaurant_id with
    | none => index
    | some r => index.filter (fun e => e.restaurant_id == r)
  let scored := inScope.map (fun e =>
    ({ dish_id := e.dish_id, restaurant_id := e.restaurant_id,
       score := sim queryVec e.embedding, embedding := e.embedding } : DishHit))
  let ranked := sortDescBy (fun h => h.score) scored
  (ranked.filter (fun h => threshold ≤ h.score)).take top_k

/-! ### `semantic_retrieve_with_negation` (faiss_service.py, doc excerpt lines 284–313) -/

/-- Step 5 of `semantic_retrieve_with_negation`: deduplicate by dish id,
keeping the first occurrence, threading the `seen` set. -/
def dedupAux (seen : List String) : List DishHit → List DishHit
  | [] => []
  | h :: hs =>
    if seen.contains h.dish_id then dedupAux seen hs
    else h :: dedupAux (h.dish_id :: seen) hs

/-- Deduplication entry point: `seen = set()` starts empty. -/
def dedupById (hits : List DishHit) : List DishHit := dedupAux [] hits

/-- The dict comprehension
`{hit.dish["_id"]: hit.embedding for hit in unique_filtered_dishes}`:
later entries overwrite earlier ones, so look up the last occurrence. -/
def embeddingDict (hits : List DishHit) : String → List ℚ :=
  fun i => ((hits.reverse.find? (fun h => h.dish_id == i)).map (fun h => h.embedding)).getD []

/-- The function `semantic_retrieve_with_negation(query, restaurant_id)`, the main
retrieval routine, with its collaborators abstracted: `extract` is
`extract_query_intent`, `search` is `search_dishes` with the restaurant
scope and defaults baked in, `cosine`/`embed` feed the centroid
refinement. Steps follow the source excerpt: extract intents, union the
positive and negative searches, veto every dish id appearing in any
negative hit, deduplicate keeping first occurrence, refine by centroid. -/
def semantic_retrieve_with_negation (extract : String → QueryIntent)
    (search : String → List DishHit) (cosine : List ℚ → List ℚ → ℚ)
    (embed : String → List ℚ) (query : String) : List DishHit :=
  let intents := extract query
  let pos_hits := (intents.positive.map search).flatten
  let neg_hits := (intents.negative.map search).flatten
  let neg_ids := neg_hits.map (fun h => h.dish_id)
  let filtered_dishes := pos_hits.filter (fun h => !(neg_ids.contains h.dish_id))
  let unique_filtered_dishes := dedupById filtered_dishes
  refine_with_centroid cosine embed unique_filtered_dishes intents.positive
    (embeddingDict unique_filtered_dishes)

/-- The sequence of `search_dishes` invocations made by one
`semantic_retrieve_with_negation` call: one per positive term (step 2),
then one per negative term (step 3). -/
def retrieveSearchCalls (extract : String → QueryIntent) (query : String) : List String :=
  let intents := extract query
  intents.positive ++ intents.negative

/-! ### `build_faiss_from_db` / `update_faiss_index` (faiss_service.py lines 140–231) -/

/-- The function `build_faiss_from_db`: one text + metadata record per dish, with
`vector_id` the dish's position (`for i, dish in enumerate(dishes)`). -/
def build_faiss_from_db (dishes : List CatalogItem) (embed : String → List ℚ) :
    List IndexEntry :=
  dishes.enum.map (fun p =>
    { vector_id := p.1, embedding := embed p.2.text,
      dish_id := p.2.dish_id, restaurant_id := p.2.restaurant_id })

/-- The function `update_faiss_index(new_dishes)`: load the existing store and
`add_texts` the new records — FAISS appends the new vectors after the
existing ones, leaving every existing entry untouched. -/
def update_faiss_index (store : List IndexEntry) (newEntries : List IndexEntry) :
    List IndexEntry :=
  store ++ newEntries

/-! ### Context resolver (`app/services/context_resolver.py`) -/

/-- One prior conversation turn, per the spec's `ConversationContext`. -/
structure Turn where
  queryText : String
  category : String
  resultSummary : String
deriving Repr, DecidableEq

/-- Modelled from the spec: `context_resolver.py` is not in the
repository sources, only its documented rule (IMPLEMENTATION_DOCS §
Context Resolver Protection and spec §4.5): a lightweight pre-check
classifies self-preference queries, which are returned exactly as-is;
everything else is rewritten using the prior turns. `selfPref` is the
pre-check, `rewrite` the external rewriting capability. -/
def resolve (selfPref : String → Bool) (rewrite : String → List Turn → String)
    (query : String) (context : List Turn) : String :=
  if selfPref query then query else rewrite query context

/-! ### Helper lemmas -/

theorem mem_insertDescBy (key : α → ℚ) (a x : α) (l : List α) :
    x ∈ insertDescBy key a l ↔ x = a ∨ x ∈ l := by
  induction l with
  | nil => simp [insertDescBy]
  | cons b bs ih =>
    by_cases h : key b ≤ key a
    · simp [insertDescBy, h]
    · simp [insertDescBy, h, ih]
      tauto

theorem sorted_insertDescBy (key : α → ℚ) (a : α) (l : List α)
    (hl : List.Pairwise (fun p q => key q ≤ key p) l) :
    List.Pairwise (fun p q => key q ≤ key p) (insertDescBy key a l) := by
  induction l with
  | nil => simp [insertDescBy]
  | cons b bs ih =>
    rcases List.pairwise_cons.mp hl with ⟨hb, hbs⟩
    by_cases h : key b ≤ key a
    · rw [insertDescBy, if_pos h]
      refine List.pairwise_cons.mpr ⟨?_, hl⟩
      intro x hx
      rcases List.mem_cons.mp hx with rfl | hx
      · exact h
      · exact le_trans (hb x hx) h
    · rw [insertDescBy, if_neg h]
      refine List.pairwise_cons.mpr ⟨?_, ih hbs⟩
      intro x hx
      rcases (mem_insertDescBy key a x bs).mp hx with rfl | hx
      · exact le_of_lt (lt_of_not_le h)
      · exact hb x hx

theorem sorted_sortDescBy (key : α → ℚ) (l : List α) :
    List.Pairwise (fun p q => key q ≤ key p) (sortDescBy key l) := by
  induction l with
  | nil => exact List.Pairwise.nil
  | cons a as ih => exact sorted_insertDescBy key a _ ih

theorem mem_sortDescBy (key : α → ℚ) (x : α) (l : List α) :
    x ∈ sortDescBy key l ↔ x ∈ l := by
  induction l with
  | nil => simp [sortDescBy]
  | cons a as ih =>
    rw [sortDescBy, mem_insertDescBy, ih, List.mem_cons]

theorem mem_dedupAux (seen : List String) (l : List DishHit) (h : DishHit)
    (hmem : h ∈ dedupAux seen l) : h ∈ l := by
  induction l generalizing seen with
  | nil => simp [dedupAux] at hmem
  | cons a as ih =>
    rw [dedupAux] at hmem
    split at hmem
    · exact List.mem_cons_of_mem a (ih _ hmem)
    · rcases List.mem_cons.mp hmem with rfl | hmem
      · exact List.mem_cons_self _ _
      · exact List.mem_cons_of_mem a (ih _ hmem)

/-- Anatomy of a refined hit: it arises from an input hit by setting
`centroid_similarity` to the cosine similarity against the centroid,
which is strictly greater than 0.30. -/
theorem mem_refine_with_centroid (cosine : List ℚ → List ℚ → ℚ)
    (embed : String → List ℚ) (dish_hits : List DishHit)
    (positive_intents : List String) (dish_embeddings : String → List ℚ)
    (h : DishHit)
    (hmem : h ∈ refine_with_centroid cosine embed dish_hits positive_intents dish_embeddings) :
    ∃ h0 ∈ dish_hits, ∃ s : ℚ,
      s = cosine (vecMean (positive_intents.map embed)) (dish_embeddings h0.dish_id) ∧
      h = { h0 with centroid_similarity := some s } ∧
      (30 : ℚ) / 100 < s := by
  unfold refine_with_centroid at hmem
  rw [mem_sortDescBy] at hmem
  rcases List.mem_filterMap.mp hmem with ⟨h0, hh0, heq⟩
  refine ⟨h0, hh0,
    cosine (vecMean (positive_intents.map embed)) (dish_embeddings h0.dish_id), rfl, ?_⟩
  by_cases hc : (30 : ℚ) / 100 <
      cosine (vecMean (positive_intents.map embed)) (dish_embeddings h0.dish_id)
  · rw [if_pos hc] at heq
    exact ⟨(Option.some_injective _ heq).symm, hc⟩
  · rw [if_neg hc] at heq
    exact absurd heq (by simp)

/-! ### Concrete instantiations used by witnesses -/

/-- A concrete hit for witness computations. -/
def hitA : DishHit :=
  { dish_id := "A", restaurant_id := "r1", score := 1, embedding := [1] }

/-- A second concrete hit, matched by the negative term below. -/
def hitB : DishHit :=
  { dish_id := "B", restaurant_id := "r1", score := 1, embedding := [0] }

/-- A concrete intent extraction: positive "pasta", negative "nuts". -/
def extract0 : String → QueryIntent := fun _ => { positive := ["pasta"], negative := ["nuts"] }

/-- A concrete search: "pasta" matches both hits, "nuts" matches `hitB`. -/
def search0 : String → List DishHit := fun t =>
  if t == "pasta" then [hitA, hitB] else if t == "nuts" then [hitB] else []

/-- A concrete cosine similarity: 1 against `hitA`'s embedding, else 0. -/
def cosine0 : List ℚ → List ℚ → ℚ := fun _ e => if e == [1] then 1 else 0

/-- A concrete embedding function. -/
def embed0 : String → List ℚ := fun _ => [1]

/-- Evaluation of the concrete retrieval: "pasta" finds both hits, the
"nuts" search vetoes `hitB`, and `hitA` survives refinement with
similarity 1. -/
theorem retrieve0_eval :
    semantic_retrieve_with_negation extract0 search0 cosine0 embed0 ("q") =
      [{ hitA with centroid_similarity := some 1 }] := by
  norm_num [semantic_retrieve_with_negation, extract0, search0, cosine0, embed0,
    refine_with_centroid, dedupById, dedupAux, embeddingDict, vecMean, vecSum,
    vecAdd, sortDescBy, insertDescBy, centroidKey, hitA, hitB,
    List.filterMap_cons, List.filterMap_nil]

/-! ### Claims -/

/-- C1 (Negation hard-veto): for every catalog item and every clause, if
the item appears in any negative-term search result of
`semantic_retrieve_with_negation`, it is absent from the returned ranked
list, even if it also scores highly on a positive term. -/
theorem negation_hard_veto (extract : String → QueryIntent)
    (search : String → List DishHit) (cosine : List ℚ → List ℚ → ℚ)
    (embed : String → List ℚ) (query : String) (itemId : String)
    (hneg : ∃ hn ∈ ((extract query).negative.map search).flatten, hn.dish_id = itemId) :
    ∀ h ∈ semantic_retrieve_with_negation extract search cosine embed query,
      h.dish_id ≠ itemId := by
  intro h hmem
  simp only [semantic_retrieve_with_negation] at hmem
  rcases mem_refine_with_centroid _ _ _ _ _ _ hmem with ⟨h0, hh0, s, _, heq, _⟩
  have hid : h.dish_id = h0.dish_id := by rw [heq]
  have h0f := mem_dedupAux _ _ _ hh0
  rw [List.mem_filter] at h0f
  rcases h0f with ⟨_, hcon⟩
  rcases hneg with ⟨hn, hhn, hnid⟩
  intro hEq
  simp at hcon
  rcases List.mem_flatten.mp hhn with ⟨l, hl, hnl⟩
  rcases List.mem_map.mp hl with ⟨t, ht, rfl⟩
  exact hcon t ht hn hnl (by rw [hnid, ← hEq]; exact hid)

/-- Witness for C1 at the concrete instantiation: `hitB` appears in the
negative search for "nuts", and the single returned hit is not `hitB`. -/
theorem negation_hard_veto_witness :
    ({ hitA with centroid_similarity := some 1 } : DishHit).dish_id ≠ "B" :=
  negation_hard_veto extract0 search0 cosine0 embed0 ("q") "B"
    ⟨hitB, by simp [extract0, search0], rfl⟩
    { hitA with centroid_similarity := some 1 }
    (by rw [retrieve0_eval]; exact List.mem_singleton.mpr rfl)

/-- C2 (Centroid monotonicity): the final result list of
`semantic_retrieve_with_negation` is sorted descending by
`centroid_similarity` — every adjacent pair satisfies
`a.centroid_similarity ≥ b.centroid_similarity` — and every returned hit
carries a refined similarity; the sort key is the centroid similarity,
not the raw per-term score. -/
theorem retrieve_sorted_by_centroid (extract : String → QueryIntent)
    (search : String → List DishHit) (cosine : List ℚ → List ℚ → ℚ)
    (embed : String → List ℚ) (query : String) :
    List.Chain' (fun a b => centroidKey b ≤ centroidKey a)
      (semantic_retrieve_with_negation extract search cosine embed query) ∧
    ∀ h ∈ semantic_retrieve_with_negation extract search cosine embed query,
      h.centroid_similarity.isSome := by
  constructor
  · apply List.Pairwise.chain'
    simp only [semantic_retrieve_with_negation, refine_with_centroid]
    exact sorted_sortDescBy centroidKey _
  · intro h hmem
    simp only [semantic_retrieve_with_negation] at hmem
    rcases mem_refine_with_centroid _ _ _ _ _ _ hmem with ⟨h0, _, s, _, heq, _⟩
    rw [heq]
    rfl

/-- Witness for C2 at the concrete instantiation: the returned hit of the
concrete retrieval carries a refined similarity. -/
theorem retrieve_sorted_by_centroid_witness :
    ({ hitA with centroid_similarity := some 1 } : DishHit).centroid_similarity.isSome :=
  (retrieve_sorted_by_centroid extract0 search0 cosine0 embed0 ("q")).2
    { hitA with centroid_similarity := some 1 }
    (by rw [retrieve0_eval]; exact List.mem_singleton.mpr rfl)

/-- C4 (Extraction fallback): when the external text-understanding call
returns malformed/unparseable output (modelled as `none`),
`extract_query_intent` returns exactly `{positive: [clause], negative: []}`;
it is a total function, so it never raises to its caller, and the result
is determined by the clause alone. -/
theorem extract_fallback (llm : String → Option QueryIntent) (query : String)
    (hmal : llm query = none) :
    extract_query_intent llm query = { positive := [query], negative := [] } := by
  unfold extract_query_intent
  rw [hmal]

/-- Witness for C4: the malformed-output extractor on "test query" falls
back to `{positive: ["test query"], negative: []}`, as in the unit test
`test_extract_intent_handles_invalid_json`. -/
theorem extract_fallback_witness :
    extract_query_intent (fun _ => none) "test query" =
      { positive := ["test query"], negative := [] } :=
  extract_fallback (fun _ => none) "test query" rfl

/-- C6 (Self-preference guard): for every query the lightweight pre-check
classifies as self-preference and every non-empty conversation context,
`resolve` returns the query string unchanged. -/
theorem resolve_self_preference_guard (selfPref : String → Bool)
    (rewrite : String → List Turn → String) (query : String) (context : List Turn)
    (hq : selfPref query = true) (hctx : context ≠ []) :
    resolve selfPref rewrite query context = query := by
  unfold resolve
  rw [hq]
  rfl

/-- A concrete prior conversation turn. -/
def turn0 : Turn := { queryText := "hi", category := "irrelevant", resultSummary := "greeting" }

/-- Witness for C6: "What am I allergic to?" is returned unchanged by a
resolver whose rewrite appends context, on a one-turn context. -/
theorem resolve_self_preference_guard_witness :
    resolve (fun q => q == "What am I allergic to?") (fun q _ => q ++ " (rewritten)")
      "What am I allergic to?" [turn0] = "What am I allergic to?" :=
  resolve_self_preference_guard _ _ _ _ (by simp) (by simp)

/-- A concrete index entry for the search-threshold boundary. -/
def entryE : IndexEntry :=
  { vector_id := 0, embedding := [1], dish_id := "E", restaurant_id := "r1" }

/-- The hit produced from `entryE` at similarity exactly 4/5. -/
def hitE : DishHit :=
  { dish_id := "E", restaurant_id := "r1", score := 4/5, embedding := [1] }

/-- A concrete similarity returning exactly the 0.8 search threshold. -/
def sim45 : List ℚ → List ℚ → ℚ := fun _ _ => (4 : ℚ) / 5

/-- Evaluation of the concrete scoped search at a raw score exactly equal
to the 0.8 threshold: the hit is included. -/
theorem search45_eval :
    search_dishes sim45 [entryE] [1] (some ("r1")) 20 ((4 : ℚ) / 5) = [hitE] := by
  norm_num [search_dishes, sim45, entryE, hitE, sortDescBy, insertDescBy]

/-- Evaluation of the concrete centroid refinement: `hitA` survives with
similarity 1. -/
theorem refine0_eval :
    refine_with_centroid cosine0 embed0 [hitA] ["pasta"] (embeddingDict [hitA]) =
      [{ hitA with centroid_similarity := some 1 }] := by
  norm_num [refine_with_centroid, cosine0, embed0, embeddingDict, vecMean, vecSum,
    vecAdd, sortDescBy, insertDescBy, centroidKey, hitA,
    List.filterMap_cons, List.filterMap_nil]

/-- C3 (Threshold boundary): every hit kept by `refine_with_centroid` has
centroid similarity strictly greater than 0.30 (so a hit at exactly 0.30
is excluded — witnessed by the second conjunct, where the similarity is
exactly 0.30 and the result is empty), while `search_dishes` keeps a hit
whose raw score exactly equals the 0.8 score threshold (non-strict). -/
theorem threshold_boundary :
    (∀ (cosine : List ℚ → List ℚ → ℚ) (embed : String → List ℚ)
      (dish_hits : List DishHit) (positive_intents : List String)
      (dish_embeddings : String → List ℚ) (h : DishHit),
      h ∈ refine_with_centroid cosine embed dish_hits positive_intents dish_embeddings →
      ∀ s : ℚ, h.centroid_similarity = some s → (30 : ℚ) / 100 < s) ∧
    refine_with_centroid (fun _ _ => (30 : ℚ) / 100) embed0 [hitA] ["pasta"]
      (embeddingDict [hitA]) = [] ∧
    search_dishes sim45 [entryE] [1] (some ("r1")) 20 ((4 : ℚ) / 5) = [hitE] := by
  refine ⟨?_, ?_, ?_⟩
  · intro cosine embed dish_hits positive_intents dish_embeddings h hmem s hs
    rcases mem_refine_with_centroid _ _ _ _ _ _ hmem with ⟨h0, _, s0, _, heq, hgt⟩
    rw [heq] at hs
    have : s0 = s := by
      simpa using hs
    rw [← this]
    exact hgt
  · norm_num [refine_with_centroid, embed0, embeddingDict, vecMean, vecSum,
      vecAdd, sortDescBy, centroidKey, hitA, List.filterMap_cons, List.filterMap_nil]
  · norm_num [search_dishes, sim45, entryE, hitE, sortDescBy, insertDescBy]

/-- Witness for C3: the concrete refined hit's similarity is strictly
above the 0.30 cutoff. -/
theorem threshold_boundary_witness : (30 : ℚ) / 100 < 1 :=
  threshold_boundary.1 cosine0 embed0 [hitA] ["pasta"] (embeddingDict [hitA])
    { hitA with centroid_similarity := some 1 }
    (by rw [refine0_eval]; exact List.mem_singleton.mpr rfl) 1 rfl

/-- An intent extraction with an empty positive set but a non-empty
negative set, as the external extractor may legitimately produce
(e.g. "anything but nuts" parsed with no positive expansion). -/
def extractEmptyPos : String → QueryIntent :=
  fun _ => { positive := [], negative := ["nuts"] }

/-- An intent extraction with both sets empty. -/
def extractEmpty : String → QueryIntent := fun _ => { positive := [], negative := [] }

/-- Counterexample for C5: on the empty clause with extracted intents
`{positive: [], negative: ["nuts"]}`, `semantic_retrieve_with_negation`
does return the empty list, but the Index **is** invoked — step 3 still
issues one `search_dishes` call per negative term, so the search-call
trace is `["nuts"]`, not empty. -/
theorem retrieve_empty_clause_counterexample :
    (extractEmptyPos ("")).positive = [] ∧
    semantic_retrieve_with_negation extractEmptyPos search0 cosine0 embed0 ("") = [] ∧
    retrieveSearchCalls extractEmptyPos ("") = ["nuts"] ∧
    ("nuts" :: ([] : List String)) ≠ [] := by
  refine ⟨rfl, ?_, rfl, by simp⟩
  norm_num [semantic_retrieve_with_negation, extractEmptyPos, search0, cosine0,
    embed0, refine_with_centroid, dedupById, dedupAux, embeddingDict, vecMean,
    vecSum, vecAdd, sortDescBy, centroidKey, hitA, hitB,
    List.filterMap_cons, List.filterMap_nil]

/-- C5 as amended: if the extracted positive set is empty the retrieval
returns the empty list; the Index is not invoked only when the negative
set is empty as well (negative-term searches are still issued
otherwise). -/
theorem retrieve_empty_positive (extract : String → QueryIntent)
    (search : String → List DishHit) (cosine : List ℚ → List ℚ → ℚ)
    (embed : String → List ℚ) (query : String)
    (hpos : (extract query).positive = []) :
    semantic_retrieve_with_negation extract search cosine embed query = [] ∧
    ((extract query).negative = [] → retrieveSearchCalls extract query = []) := by
  constructor
  · simp only [semantic_retrieve_with_negation, hpos]
    simp [refine_with_centroid, dedupById, dedupAux, sortDescBy]
  · intro hneg
    simp [retrieveSearchCalls, hpos, hneg]

/-- Witness for C5's amended statement: with both intent sets empty the
retrieval is empty and no search call is issued. -/
theorem retrieve_empty_positive_witness :
    semantic_retrieve_with_negation extractEmpty search0 cosine0 embed0 ("") = [] ∧
    retrieveSearchCalls extractEmpty ("") = [] :=
  ⟨(retrieve_empty_positive extractEmpty search0 cosine0 embed0 ("") rfl).1,
   (retrieve_empty_positive extractEmpty search0 cosine0 embed0 ("") rfl).2 rfl⟩

/-- C7 (Search contract): `search_dishes` returns hits ranked descending
by similarity score, keeps only hits with `score ≥ threshold`, restricts
to the supplied restaurant scope when there is one, and returns at most
`top_k` hits. -/
theorem search_dishes_contract (sim : List ℚ → List ℚ → ℚ)
    (index : List IndexEntry) (queryVec : List ℚ) (restaurant_id : Option String)
    (top_k : Nat) (threshold : ℚ) :
    List.Chain' (fun a b => b.score ≤ a.score)
      (search_dishes sim index queryVec restaurant_id top_k threshold) ∧
    (∀ h ∈ search_dishes sim index queryVec restaurant_id top_k threshold,
      threshold ≤ h.score) ∧
    (∀ rid, restaurant_id = some rid →
      ∀ h ∈ search_dishes sim index queryVec restaurant_id top_k threshold,
        h.restaurant_id = rid) ∧
    (search_dishes sim index queryVec restaurant_id top_k threshold).length ≤ top_k := by
  refine ⟨?_, ?_, ?_, ?_⟩
  · apply List.Pairwise.chain'
    simp only [search_dishes]
    exact (((sorted_sortDescBy _ _).filter _).sublist (List.take_sublist _ _))
  · intro h hmem
    simp only [search_dishes] at hmem
    have hf := List.mem_of_mem_take hmem
    rw [List.mem_filter] at hf
    simpa using hf.2
  · intro rid hrid h hmem
    simp only [search_dishes, hrid] at hmem
    have hf := List.mem_of_mem_take hmem
    rw [List.mem_filter] at hf
    have hs := (mem_sortDescBy _ _ _).mp hf.1
    rcases List.mem_map.mp hs with ⟨e, he, rfl⟩
    rcases List.mem_filter.mp he with ⟨_, hbeq⟩
    simpa using hbeq
  · simp only [search_dishes]
    exact List.length_take_le _ _

/-- Witness for C7: the concrete scoped search returns `hitE`, whose
restaurant is the requested scope. -/
theorem search_dishes_contract_witness : hitE.restaurant_id = "r1" :=
  (search_dishes_contract sim45 [entryE] [1] (some ("r1")) 20 ((4 : ℚ) / 5)).2.2.1
    "r1" rfl hitE (by rw [search45_eval]; exact List.mem_singleton.mpr rfl)

/-- C9 (Index invariant): `build_faiss_from_db` creates exactly one index
entry per catalog item, in order, with `vector_id` equal to the item's
position, and `update_faiss_index` appends new records after the existing
store, leaving every existing `vector_id`-to-item association unchanged
(the original store is an unchanged prefix of the updated one). -/
theorem index_invariant (dishes : List CatalogItem) (embed : String → List ℚ)
    (store newEntries : List IndexEntry) :
    (build_faiss_from_db dishes embed).map (fun e => e.dish_id) =
      dishes.map (fun d => d.dish_id) ∧
    (build_faiss_from_db dishes embed).map (fun e => e.vector_id) =
      List.range dishes.length ∧
    (update_faiss_index store newEntries).take store.length = store := by
  refine ⟨?_, ?_, List.take_left store newEntries⟩
  · unfold build_faiss_from_db
    rw [List.map_map]
    conv_rhs => rw [← List.enum_map_snd dishes, List.map_map]
    rfl
  · unfold build_faiss_from_db
    rw [List.map_map, ← List.enum_map_fst dishes]
    rfl

/-- An intent extraction with no negative terms. -/
def extractPosOnly : String → QueryIntent :=
  fun _ => { positive := ["pasta"], negative := [] }

/-- C10 (implicit): when the extracted negative set is empty, the
negative-filtering step of the retrieval is the identity (no item is
vetoed) and the final result is exactly the deduplicated,
centroid-refined, re-ranked positive hits. -/
theorem empty_negative_no_veto (extract : String → QueryIntent)
    (search : String → List DishHit) (cosine : List ℚ → List ℚ → ℚ)
    (embed : String → List ℚ) (query : String)
    (hneg : (extract query).negative = []) :
    (((extract query).positive.map search).flatten.filter
        (fun h => !((((extract query).negative.map search).flatten.map
          (fun h => h.dish_id)).contains h.dish_id)) =
      ((extract query).positive.map search).flatten) ∧
    semantic_retrieve_with_negation extract search cosine embed query =
      refine_with_centroid cosine embed
        (dedupById (((extract query).positive.map search).flatten))
        (extract query).positive
        (embeddingDict (dedupById (((extract query).positive.map search).flatten))) := by
  have hflat : (((extract query).negative.map search).flatten) = [] := by
    rw [hneg]
    rfl
  constructor
  · rw [hflat]
    simp [Function.comp_def, List.filter_true]
  · simp only [semantic_retrieve_with_negation, hflat]
    simp [Function.comp_def, List.filter_true]

/-- Witness for C10: the concrete positive-only retrieval equals the
unvetoed refined pipeline. -/
theorem empty_negative_no_veto_witness :
    semantic_retrieve_with_negation extractPosOnly search0 cosine0 embed0 ("q") =
      refine_with_centroid cosine0 embed0
        (dedupById ((["pasta"].map search0).flatten)) ["pasta"]
        (embeddingDict (dedupById ((["pasta"].map search0).flatten))) :=
  (empty_negative_no_veto extractPosOnly search0 cosine0 embed0 ("q") rfl).2

end SafeBites
